import Mathlib

/-!
Verification of the WebSearch extension core pipeline
(`src/index.js` of Extension-WebSearch).

JavaScript strings are modelled as `List Char`; machine integers
(timestamps, budgets, counts) as `Nat`.  Asynchronous network calls are
modelled by explicit oracles passed as function arguments, and the
key-value cache (`localforage`) by an association list threaded through
the functions that touch it.
-/

namespace WebSearch

/-- JavaScript strings, modelled as lists of characters. -/
abbrev Str := List Char

/-- Convenience conversion from Lean string literals to `Str`. -/
def str (s : String) : Str := s.data

/-- Characters stripped by JavaScript `String.prototype.trim`. -/
def isSpaceChar (c : Char) : Bool := c = ' ' || c = '\t' || c = '\n' || c = '\r'

/-- Model of JavaScript `s.trim()`: whitespace removed from both ends. -/
def trimStr (s : Str) : Str :=
  ((s.dropWhile isSpaceChar).reverse.dropWhile isSpaceChar).reverse

/-- Model of JavaScript `h.includes(sub)`: `sub` occurs contiguously in `h`. -/
def strIncludes (h sub : Str) : Bool :=
  match h with
  | [] => sub.isEmpty
  | _ :: t => (h.take sub.length == sub) || strIncludes t sub

/-- Accumulator loop behind `dedupKeepFirst`: keeps an element iff it has not
been seen earlier, which is exactly the SillyTavern `onlyUnique` callback
`(value, index, array) => array.indexOf(value) === index` used with
`Array.prototype.filter`. -/
def dedupLoop (seen : List Str) : List Str → List Str
  | [] => []
  | x :: xs =>
    if x ∈ seen then dedupLoop seen xs
    else x :: dedupLoop (x :: seen) xs

/-- Model of `xs.filter(onlyUnique)`: drop every element equal to an earlier
one, keeping first occurrences in order. -/
def dedupKeepFirst (l : List Str) : List Str := dedupLoop [] l

/-! ## Link Filter (`isAllowedUrl`, src/index.js lines 75-89)

`new URL(link)` is a browser builtin, so URL parsing is modelled here:
a scheme made of letters followed by `"://"`, then an authority section
ending at `/`, `?` or `#`; userinfo before `@` and a `:port` suffix are
stripped from the authority to obtain the hostname.  The model rejects
inputs without a scheme separator and hostnames that are empty or contain
a space, which is all the claims rely on. -/

/-- Split `link` at the first occurrence of `"://"`, returning the part
before it and the part after it. -/
def splitScheme : Str → Option (Str × Str)
  | [] => none
  | c :: rest =>
    if (c :: rest).take 3 = [':', '/', '/'] then some ([], (c :: rest).drop 3)
    else
      match splitScheme rest with
      | some (before, after) => some (c :: before, after)
      | none => none

/-- Model of the hostname extraction performed by `new URL(link).hostname`;
`none` models the `URL` constructor throwing. -/
def parseUrlHostname (link : Str) : Option Str :=
  match splitScheme link with
  | none => none
  | some (scheme, rest) =>
    if scheme ≠ [] ∧ scheme.all Char.isAlpha then
      let authority := rest.takeWhile (fun c => !(c = '/' || c = '?' || c = '#'))
      let hostPort := (authority.reverse.takeWhile (fun c => !(c = '@'))).reverse
      let hostname := hostPort.takeWhile (fun c => !(c = ':'))
      if hostname ≠ [] ∧ hostname.all (fun c => !(c = ' ')) then some hostname
      else none
    else none

/-- `defaultSettings.visit_blacklist` (src/index.js lines 43-48). -/
def defaultVisitBlacklist : List Str :=
  [str "youtube.com", str "twitter.com", str "facebook.com", str "instagram.com"]

/-- `isAllowedUrl` (src/index.js lines 75-89): parse the link; on failure
return `false`; otherwise the link is blacklisted iff some blacklist entry
that is non-empty after trimming occurs verbatim as a substring of the
hostname (`y.trim() && url.hostname.includes(y)`).  The
`extension_settings.websearch.visit_blacklist` read is modelled by the
`blacklist` argument; the `typeof y === "string"` guard is vacuous because
entries are strings by construction. -/
def isAllowedUrl (blacklist : List Str) (link : Str) : Bool :=
  match parseUrlHostname link with
  | none => false
  | some hostname =>
    !(blacklist.any fun y => !(trimStr y).isEmpty && strIncludes hostname y)

/-! ## Text Budgeter (budgeting loop of `performSearchRequest`,
src/index.js lines 331-362; the spec calls it `assembleText`)

`trimToEndSentence` and `trimToStartSentence` are SillyTavern utilities
(external to this repository); they are taken as function parameters
`trimE` and `trimS`.  The only fact the theorems assume about them is
that `trimE` never lengthens its input. -/

/-- The per-snippet ellipsis handling (src/index.js lines 338-344):
a snippet ending in `"..."` loses it and is trimmed back to the end of a
sentence (`trimToEndSentence(snippet.slice(0, -3)).trim()`); a snippet
then starting with `"..."` loses it and is trimmed forward to the start
of a sentence (`trimToStartSentence(snippet.slice(3)).trim()`). -/
def processSnippet (trimE trimS : Str → Str) (snippet : Str) : Str :=
  let s1 := if snippet.reverse.take 3 = ['.', '.', '.']
            then trimStr (trimE (snippet.take (snippet.length - 3)))
            else snippet
  if s1.take 3 = ['.', '.', '.']
  then trimStr (trimS (s1.drop 3))
  else s1

/-- The snippet actually appended (src/index.js lines 349-357): if the
snippet plus its trailing newline does not fit into the remaining budget
(`toAdd.length + 1 > remaining`), it is cut to `remaining - 1` characters
(`Math.max(0, remaining - 1)` equals truncated subtraction on `Nat`) and
re-trimmed to a sentence end. -/
def newSnippet (trimE trimS : Str → Str) (snippet : Str) (budget : Nat)
    (text : Str) : Str :=
  if budget - text.length < (processSnippet trimE trimS snippet).length + 1
  then trimStr (trimE ((processSnippet trimE trimS snippet).take
    (budget - text.length - 1)))
  else processSnippet trimE trimS snippet

/-- The `for` loop of src/index.js lines 335-362, one equation per guard:
empty snippets are skipped before and after the ellipsis handling, the
loop breaks (`break`) once `text.length >= budget`, a snippet emptied by
truncation is skipped, and otherwise `text += toAdd + "\n"`. -/
def assembleLoop (trimE trimS : Str → Str) (budget : Nat) :
    List Str → Str → Str
  | [], text => text
  | snippet :: rest, text =>
    if snippet = [] then assembleLoop trimE trimS budget rest text
    else if processSnippet trimE trimS snippet = [] then
      assembleLoop trimE trimS budget rest text
    else if budget ≤ text.length then text
    else if newSnippet trimE trimS snippet budget text = [] then
      assembleLoop trimE trimS budget rest text
    else
      assembleLoop trimE trimS budget rest
        (text ++ newSnippet trimE trimS snippet budget text ++ ['\n'])

/-- The whole budgeting pass of `performSearchRequest`
(src/index.js lines 332-362): the text bits are deduplicated
(`textBits.filter(onlyUnique)`) and folded through the budget loop
starting from the empty string. -/
def assembleText (trimE trimS : Str → Str) (textBits : List Str)
    (budget : Nat) : Str :=
  assembleLoop trimE trimS budget (dedupKeepFirst textBits) []

/-! ## Query Executor (`doSerperQuery`, src/index.js lines 198-285)

The two `fetch` calls are modelled by the `webResponse` and
`imageResponse` oracle arguments: `none` models a rejected promise
(transport failure), `some r` a fulfilled one carrying the HTTP success
flag `r.ok` and the parsed JSON body `r.data`.  `Promise.allSettled`
guarantees both outcomes are available and that neither failure aborts
the other, which the model reflects by `doSerperQuery` being a total
function of both outcomes. -/

structure AnswerBox where
  title : Str
  answer : Str
deriving DecidableEq

structure KnowledgeGraph where
  title : Str
  kgType : Str
  attributes : List (Str × Str)
deriving DecidableEq

structure OrganicResult where
  snippet : Str
  link : Str
deriving DecidableEq

structure PeopleAlsoAskEntry where
  question : Str
  snippet : Str
  link : Str
deriving DecidableEq

structure ImageEntry where
  imageUrl : Str
deriving DecidableEq

/-- Shape of a Serper JSON response body; `none` in a field models the
field being absent (or failing the `Array.isArray` check). -/
structure SerperData where
  answerBox : Option AnswerBox
  knowledgeGraph : Option KnowledgeGraph
  organic : Option (List OrganicResult)
  peopleAlsoAsk : Option (List PeopleAlsoAskEntry)
  images : Option (List ImageEntry)
deriving DecidableEq

/-- A fulfilled `fetch` outcome: HTTP success flag plus parsed body. -/
structure SerperResponse where
  ok : Bool
  data : SerperData
deriving DecidableEq

/-- The `{textBits, links, images}` intermediate payload. -/
structure RawSearchPayload where
  textBits : List Str
  links : List Str
  images : List Str
deriving DecidableEq

/-- JavaScript template `` `${a} ${b}` ``. -/
def spaceJoin (a b : Str) : Str := a ++ ' ' :: b

/-- Parsing of a successful web-search response
(src/index.js lines 227-257): answer box, knowledge graph with its
attributes, organic snippets and links, people-also-ask entries, and -
only when image inclusion is enabled - the web response's own images. -/
def parseWebData (includeImages : Bool) (data : SerperData) : RawSearchPayload :=
  let abBits := match data.answerBox with
    | some ab => [spaceJoin ab.title ab.answer]
    | none => []
  let kgBits := match data.knowledgeGraph with
    | some kg =>
      spaceJoin kg.title kg.kgType ::
        kg.attributes.map (fun kv => kv.1 ++ ':' :: ' ' :: kv.2)
    | none => []
  let organicBits := match data.organic with
    | some xs => xs.map (fun x => x.snippet)
    | none => []
  let organicLinks := match data.organic with
    | some xs => xs.map (fun x => x.link)
    | none => []
  let paaBits := match data.peopleAlsoAsk with
    | some xs => xs.map (fun x => spaceJoin x.question x.snippet)
    | none => []
  let paaLinks := match data.peopleAlsoAsk with
    | some xs => xs.map (fun x => x.link)
    | none => []
  let webImages := if includeImages then
      match data.images with
      | some xs => xs.map (fun x => x.imageUrl)
      | none => []
    else []
  ⟨abBits ++ kgBits ++ organicBits ++ paaBits,
   organicLinks ++ paaLinks,
   webImages⟩

/-- The web half of `doSerperQuery` (src/index.js lines 227-264):
contributes nothing unless the request fulfilled with a success status
(`webResponse.status === "fulfilled" && webResponse.value?.ok`). -/
def parseWebOutcome (includeImages : Bool) :
    Option SerperResponse → RawSearchPayload
  | some r => if r.ok then parseWebData includeImages r.data else ⟨[], [], []⟩
  | none => ⟨[], [], []⟩

/-- The image half of `doSerperQuery` (src/index.js lines 267-278):
image URLs from a fulfilled, successful image-search response. -/
def parseImageOutcome : Option SerperResponse → List Str
  | some r =>
    if r.ok then
      match r.data.images with
      | some xs => xs.map (fun x => x.imageUrl)
      | none => []
    else []
  | none => []

/-- `doSerperQuery` (src/index.js lines 198-285).  When `includeImages`
is false the image request is never issued
(`includeImages ? fetch(...) : Promise.resolve(null)`), modelled by
discarding the `imageResponse` oracle.  The final guard returning
`emptyResult` when everything is empty (lines 280-282) is kept even
though both branches denote the same value. -/
def doSerperQuery (includeImages : Bool)
    (webResponse imageResponse : Option SerperResponse) : RawSearchPayload :=
  if (parseWebOutcome includeImages webResponse).textBits = [] ∧
     (parseWebOutcome includeImages webResponse).links = [] ∧
     (parseWebOutcome includeImages webResponse).images ++
       parseImageOutcome (if includeImages then imageResponse else none) = [] then
    ⟨[], [], []⟩
  else
    ⟨(parseWebOutcome includeImages webResponse).textBits,
     (parseWebOutcome includeImages webResponse).links,
     (parseWebOutcome includeImages webResponse).images ++
       parseImageOutcome (if includeImages then imageResponse else none)⟩

/-- A request failed in the sense of the spec's error taxonomy: its
promise rejected (transport error) or it fulfilled with a non-success
HTTP status. -/
def requestFailed : Option SerperResponse → Prop
  | some r => r.ok = false
  | none => True

/-! ## Page Visitor and Bounded Visitor
(`visitLink` / `collectVisitResults`, src/index.js lines 151-191)

`visitLink` wraps a network fetch and HTML extraction, both external;
it is modelled by the oracle `visit : Str → Option VisitResult`, `none`
standing for the `undefined` returned on a failed status or a caught
transport error. -/

structure VisitResult where
  link : Str
  text : Str
deriving DecidableEq

/-- The loop of `collectVisitResults` (src/index.js lines 182-191).
The first component of the returned pair is the function's return value
(`results`); the second instruments the loop with the list of links
actually passed to `visitLink`, so that the number of attempted fetches
can be stated.  The loop breaks once `results.length >= maxCount`,
skips links rejected by the Link Filter, and pushes only truthy visit
results. -/
def collectVisitLoop (blacklist : List Str) (visit : Str → Option VisitResult)
    (maxCount : Nat) :
    List Str → List VisitResult → List Str → List VisitResult × List Str
  | [], results, attempted => (results, attempted)
  | link :: rest, results, attempted =>
    if maxCount ≤ results.length then (results, attempted)
    else if !isAllowedUrl blacklist link then
      collectVisitLoop blacklist visit maxCount rest results attempted
    else
      match visit link with
      | some r =>
        collectVisitLoop blacklist visit maxCount rest
          (results ++ [r]) (attempted ++ [link])
      | none =>
        collectVisitLoop blacklist visit maxCount rest
          results (attempted ++ [link])

/-- `collectVisitResults(links, maxCount)` (src/index.js lines 182-191),
with a finite `maxCount` as passed by every caller in the claims.
`.1` is the returned result array, `.2` the instrumented list of
attempted links. -/
def collectVisitResults (blacklist : List Str)
    (visit : Str → Option VisitResult) (links : List Str) (maxCount : Nat) :
    List VisitResult × List Str :=
  collectVisitLoop blacklist visit maxCount links [] []

/-! ## Result Cache and Search Orchestrator
(`performSearchRequest`, src/index.js lines 294-385)

The `localforage` instance is modelled as an association list from keys
to cache entries, threaded in and out of `performSearchRequest`.
`Date.now()` is the `now` argument. -/

structure CacheEntry where
  text : Str
  links : List Str
  images : List Str
  timestamp : Nat
deriving DecidableEq

abbrev Store := List (Str × CacheEntry)

structure SearchResult where
  text : Str
  links : List Str
  images : List Str
deriving DecidableEq

/-- Model of `storage.getItem(key)`. -/
def storeGet (store : Store) (key : Str) : Option CacheEntry :=
  (store.find? (fun p => p.1 == key)).map (fun p => p.2)

/-- Model of `storage.removeItem(key)`. -/
def storeRemove (store : Store) (key : Str) : Store :=
  store.filter (fun p => !(p.1 == key))

/-- Model of `storage.setItem(key, value)`. -/
def storeSet (store : Store) (key : Str) (e : CacheEntry) : Store :=
  storeRemove store key ++ [(key, e)]

/-- The cache key `` `query_${query}` `` (src/index.js line 299). -/
def cacheKey (query : Str) : Str := str "query_" ++ query

/-- The cache read of `performSearchRequest` (src/index.js lines
298-318): a stored entry is expired when
`cachedResult.timestamp + cacheLifetime * 1000 < Date.now()`, in which
case it is removed and the read misses; otherwise its
`{text, links, images}` is returned.  The pair carries the store after
the read's side effect. -/
def cacheGet (store : Store) (cacheLifetime : Nat) (now : Nat) (key : Str) :
    Option SearchResult × Store :=
  match storeGet store key with
  | none => (none, store)
  | some e =>
    if e.timestamp + cacheLifetime * 1000 < now then
      (none, storeRemove store key)
    else
      (some ⟨e.text, e.links, e.images⟩, store)

/-- The `{useCache?: boolean}` options object. -/
structure SearchRequestOptions where
  useCache : Option Bool
deriving DecidableEq

/-- `options?.useCache ?? true` with the default parameter
`options = {}` (src/index.js lines 294-295): an omitted argument,
an options object without the field, and `{useCache: true}` all
resolve to `true`. -/
def resolveUseCache (options : Option SearchRequestOptions) : Bool :=
  ((options.getD ⟨none⟩).useCache).getD true

/-- The configuration fields of `extension_settings.websearch` read by
`performSearchRequest`. -/
structure Config where
  cacheLifetime : Nat
  budget : Nat
deriving DecidableEq

/-- The outcome of one `performSearchRequest` call: its return value,
the cache store after the call, and whether `doSerperQuery` (a provider
request) was invoked. -/
structure PerformOutcome where
  result : SearchResult
  store : Store
  providerCalled : Bool
deriving DecidableEq

/-- The cache-miss tail of `performSearchRequest` (src/index.js lines
320-385): query the provider (the `try/catch` that degrades a thrown
search to an empty payload is absorbed into the totality of
`provider`), deduplicate links and images, assemble the budgeted text;
an empty text returns the `{text: "", links: [], images: []}` sentinel
without writing the cache, otherwise the result is stored under the
query's key with the current timestamp when caching is on. -/
def performMiss (trimE trimS : Str → Str) (cfg : Config)
    (provider : Str → RawSearchPayload) (store : Store) (now : Nat)
    (query : Str) (useCache : Bool) : PerformOutcome :=
  if assembleText trimE trimS (provider query).textBits cfg.budget = [] then
    ⟨⟨[], [], []⟩, store, true⟩
  else
    ⟨⟨assembleText trimE trimS (provider query).textBits cfg.budget,
      dedupKeepFirst (provider query).links,
      dedupKeepFirst (provider query).images⟩,
     if useCache then
       storeSet store (cacheKey query)
         ⟨assembleText trimE trimS (provider query).textBits cfg.budget,
          dedupKeepFirst (provider query).links,
          dedupKeepFirst (provider query).images, now⟩
     else store,
     true⟩

/-- `performSearchRequest(query, options)` (src/index.js lines 294-385):
resolve `useCache`, consult the cache when it is on, return a valid hit
verbatim without a provider call, and otherwise run the miss path on
the store left by the read. -/
def performSearchRequest (trimE trimS : Str → Str) (cfg : Config)
    (provider : Str → RawSearchPayload) (store : Store) (now : Nat)
    (query : Str) (options : Option SearchRequestOptions) : PerformOutcome :=
  match (if resolveUseCache options then
           cacheGet store cfg.cacheLifetime now (cacheKey query)
         else (none, store)) with
  | (some r, s) => ⟨r, s, false⟩
  | (none, s) =>
    performMiss trimE trimS cfg provider s now query (resolveUseCache options)

/-! ## Lemmas about the Text Budgeter -/

/-- JavaScript `trim` never lengthens a string. -/
theorem trimStr_length_le (s : Str) : (trimStr s).length ≤ s.length := by
  unfold trimStr
  have h1 := (List.dropWhile_sublist (l := s) isSpaceChar).length_le
  have h2 :=
    (List.dropWhile_sublist (l := (s.dropWhile isSpaceChar).reverse) isSpaceChar).length_le
  simp only [List.length_reverse] at *
  omega

/-- Whatever branch `newSnippet` takes, the appended snippet plus its
newline fits into the space left by `text` inside `budget`, provided
the loop has not already reached the budget and `trimE` never lengthens
its input. -/
theorem newSnippet_fits (trimE trimS : Str → Str)
    (hE : ∀ s, (trimE s).length ≤ s.length)
    (snippet : Str) (budget : Nat) (text : Str)
    (h : ¬ budget ≤ text.length) :
    text.length + (newSnippet trimE trimS snippet budget text).length + 1 ≤ budget := by
  unfold newSnippet
  split_ifs with hc
  · have h1 := trimStr_length_le
      (trimE ((processSnippet trimE trimS snippet).take (budget - text.length - 1)))
    have h2 := hE ((processSnippet trimE trimS snippet).take (budget - text.length - 1))
    have h3 : ((processSnippet trimE trimS snippet).take
        (budget - text.length - 1)).length ≤ budget - text.length - 1 := by
      simp [List.length_take]
    omega
  · omega

/-- The budget loop keeps the accumulated text within the budget. -/
theorem assembleLoop_length_le (trimE trimS : Str → Str)
    (hE : ∀ s, (trimE s).length ≤ s.length) (budget : Nat) :
    ∀ (bits : List Str) (text : Str), text.length ≤ budget →
      (assembleLoop trimE trimS budget bits text).length ≤ budget := by
  intro bits
  induction bits with
  | nil => intro text ht; simpa only [assembleLoop] using ht
  | cons snippet rest ih =>
    intro text ht
    rw [assembleLoop]
    split_ifs with h1 h2 h3 h4
    · exact ih text ht
    · exact ih text ht
    · exact ht
    · exact ih text ht
    · apply ih
      have hfit := newSnippet_fits trimE trimS hE snippet budget text h3
      simp only [List.length_append, List.length_cons, List.length_nil]
      omega

/-- The budget loop only ever appends `toAdd + "\n"`, so the text it
returns is empty or ends in a newline. -/
theorem assembleLoop_getLast (trimE trimS : Str → Str) (budget : Nat) :
    ∀ (bits : List Str) (text : Str),
      text = [] ∨ text.getLast? = some '\n' →
      assembleLoop trimE trimS budget bits text = [] ∨
        (assembleLoop trimE trimS budget bits text).getLast? = some '\n' := by
  intro bits
  induction bits with
  | nil => intro text ht; simpa only [assembleLoop] using ht
  | cons snippet rest ih =>
    intro text ht
    rw [assembleLoop]
    split_ifs with h1 h2 h3 h4
    · exact ih text ht
    · exact ih text ht
    · exact ht
    · exact ih text ht
    · apply ih
      right
      exact List.getLast?_concat _

/-- Claim C1: for every sequence of text bits and every non-negative
character budget, the text assembled by the budgeting loop of
`performSearchRequest` (the spec's `assembleText`) has length at most
`budget`, and its final character, when the result is non-empty, is a
newline.  The external SillyTavern sentence trimmers are arbitrary
functions; only `trimToEndSentence` never lengthening its input is
assumed. -/
theorem assembleText_budget_and_newline (trimE trimS : Str → Str)
    (hE : ∀ s, (trimE s).length ≤ s.length)
    (textBits : List Str) (budget : Nat) :
    (assembleText trimE trimS textBits budget).length ≤ budget ∧
    (assembleText trimE trimS textBits budget ≠ [] →
      (assembleText trimE trimS textBits budget).getLast? = some '\n') := by
  unfold assembleText
  constructor
  · exact assembleLoop_length_le trimE trimS hE budget
      (dedupKeepFirst textBits) [] (Nat.zero_le _)
  · intro hne
    rcases assembleLoop_getLast trimE trimS budget
        (dedupKeepFirst textBits) [] (Or.inl rfl) with h | h
    · exact absurd h hne
    · exact h

/-- Witness for C1 at a concrete input. -/
theorem assembleText_budget_and_newline_witness :
    (assembleText id id [str "Hi."] 5).length ≤ 5 ∧
    (assembleText id id [str "Hi."] 5 ≠ [] →
      (assembleText id id [str "Hi."] 5).getLast? = some '\n') :=
  assembleText_budget_and_newline id id (fun _ => Nat.le_refl _) [str "Hi."] 5

/-! ## Lemmas about deduplication -/

/-- The dedup loop keeps a subsequence of its input, so order is
preserved. -/
theorem dedupLoop_sublist : ∀ (l seen : List Str), List.Sublist (dedupLoop seen l) l
  | [], _ => by rw [dedupLoop]
  | x :: xs, seen => by
    rw [dedupLoop]
    split_ifs with h
    · exact List.Sublist.cons x (dedupLoop_sublist xs seen)
    · exact List.Sublist.cons₂ x (dedupLoop_sublist xs (x :: seen))

/-- Nothing already seen is ever emitted by the dedup loop. -/
theorem dedupLoop_not_mem_seen :
    ∀ (l seen : List Str) (x : Str), x ∈ dedupLoop seen l → x ∉ seen
  | [], _, x => by rw [dedupLoop]; intro h; cases h
  | y :: ys, seen, x => by
    rw [dedupLoop]
    split_ifs with h
    · exact dedupLoop_not_mem_seen ys seen x
    · intro hx
      rcases List.mem_cons.mp hx with rfl | hx'
      · exact h
      · exact fun hs =>
          dedupLoop_not_mem_seen ys (y :: seen) x hx' (List.mem_cons_of_mem y hs)

/-- The dedup loop emits no duplicates. -/
theorem dedupLoop_nodup : ∀ (l seen : List Str), (dedupLoop seen l).Nodup
  | [], _ => by rw [dedupLoop]; exact List.nodup_nil
  | y :: ys, seen => by
    rw [dedupLoop]
    split_ifs with h
    · exact dedupLoop_nodup ys seen
    · refine List.nodup_cons.mpr ⟨?_, dedupLoop_nodup ys (y :: seen)⟩
      intro hy
      exact dedupLoop_not_mem_seen ys (y :: seen) y hy (List.mem_cons_self y seen)

/-- `xs.filter(onlyUnique)` produces no duplicates. -/
theorem dedupKeepFirst_nodup (l : List Str) : (dedupKeepFirst l).Nodup :=
  dedupLoop_nodup l []

/-- `xs.filter(onlyUnique)` preserves the original relative order. -/
theorem dedupKeepFirst_sublist (l : List Str) : List.Sublist (dedupKeepFirst l) l :=
  dedupLoop_sublist l []

/-! ## Lemmas about the store and the cache read -/

/-- After `removeItem`, looking the key up in the underlying list finds
nothing. -/
theorem find?_storeRemove (store : Store) (key : Str) :
    (storeRemove store key).find? (fun p => p.1 == key) = none := by
  rw [List.find?_eq_none]
  intro p hp
  have h2 := (List.mem_filter.mp hp).2
  simp only [Bool.not_eq_true'] at h2
  simp [h2]

/-- `getItem` after `removeItem` of the same key misses. -/
theorem storeGet_remove_same (store : Store) (key : Str) :
    storeGet (storeRemove store key) key = none := by
  unfold storeGet
  rw [find?_storeRemove]
  rfl

/-- `getItem` after `setItem` of the same key returns the new entry. -/
theorem storeGet_set_same (store : Store) (key : Str) (e : CacheEntry) :
    storeGet (storeSet store key e) key = some e := by
  unfold storeGet storeSet
  rw [List.find?_append, find?_storeRemove]
  simp [List.find?]

/-- A cache hit always comes verbatim from a stored entry, and leaves
the store untouched. -/
theorem cacheGet_some_spec (store : Store) (ttl now : Nat) (key : Str)
    (r : SearchResult) (s : Store)
    (h : cacheGet store ttl now key = (some r, s)) :
    ∃ e, storeGet store key = some e ∧ r = ⟨e.text, e.links, e.images⟩ ∧ s = store := by
  unfold cacheGet at h
  cases hg : storeGet store key with
  | none => rw [hg] at h; simp at h
  | some e =>
    rw [hg] at h
    dsimp only at h
    split_ifs at h with hexp
    · simp at h
    · simp only [Prod.mk.injEq, Option.some.injEq] at h
      exact ⟨e, rfl, h.1.symm, h.2.symm⟩

/-- Claim C3 counterexample: the claim says an entry is absent as soon
as `now - storedAt >= ttlSeconds * 1000`, but at exactly
`now - storedAt = ttlSeconds * 1000` (entry stored at 0, ttl 1 second,
read at 1000 ms) the code's strict comparison
`timestamp + cacheLifetime * 1000 < Date.now()` still treats the entry
as valid and returns it. -/
theorem cacheGet_boundary_hit :
    1000 - 0 ≥ 1 * 1000 ∧
    (cacheGet [(str "k", ⟨str "hi", [], [], 0⟩)] 1 1000 (str "k")).1 =
      some ⟨str "hi", [], []⟩ := by decide

/-- Claim C3 (amended): the cache read performed by
`performSearchRequest` returns absent when no entry exists or when
`now - storedAt > ttlSeconds * 1000` (strictly) at the time of the
read; in the expired case the stored entry is deleted as a side effect
of the read, so a subsequent read of the same key finds no entry.  A
non-expired entry is returned verbatim. -/
theorem cacheGet_absent_spec (store : Store) (ttl now : Nat) (key : Str) :
    (storeGet store key = none → cacheGet store ttl now key = (none, store)) ∧
    (∀ e, storeGet store key = some e → e.timestamp + ttl * 1000 < now →
      (cacheGet store ttl now key).1 = none ∧
      storeGet (cacheGet store ttl now key).2 key = none ∧
      (cacheGet (cacheGet store ttl now key).2 ttl now key).1 = none) ∧
    (∀ e, storeGet store key = some e → ¬ e.timestamp + ttl * 1000 < now →
      (cacheGet store ttl now key).1 = some ⟨e.text, e.links, e.images⟩) := by
  refine ⟨?_, ?_, ?_⟩
  · intro h
    unfold cacheGet
    rw [h]
  · intro e he hexp
    have hc : cacheGet store ttl now key = (none, storeRemove store key) := by
      unfold cacheGet
      rw [he]
      dsimp only
      rw [if_pos hexp]
    rw [hc]
    refine ⟨rfl, storeGet_remove_same store key, ?_⟩
    unfold cacheGet
    rw [storeGet_remove_same store key]
  · intro e he hexp
    unfold cacheGet
    rw [he]
    dsimp only
    rw [if_neg hexp]

/-- Witness for the amended C3 at a concrete expired entry. -/
theorem cacheGet_absent_spec_witness :
    (cacheGet [(str "k", ⟨str "hi", [], [], 0⟩)] 1 2000 (str "k")).1 = none ∧
    storeGet (cacheGet [(str "k", ⟨str "hi", [], [], 0⟩)] 1 2000 (str "k")).2
      (str "k") = none ∧
    (cacheGet (cacheGet [(str "k", ⟨str "hi", [], [], 0⟩)] 1 2000 (str "k")).2
      1 2000 (str "k")).1 = none :=
  (cacheGet_absent_spec [(str "k", ⟨str "hi", [], [], 0⟩)] 1 2000 (str "k")).2.1
    ⟨str "hi", [], [], 0⟩ (by decide) (by decide)

/-! ## Path lemmas for `performSearchRequest` -/

/-- With caching on, a valid cache hit is returned verbatim with no
provider call. -/
theorem performSearchRequest_eq_hit (trimE trimS : Str → Str) (cfg : Config)
    (provider : Str → RawSearchPayload) (store : Store) (now : Nat)
    (query : Str) (options : Option SearchRequestOptions)
    (r : SearchResult) (s : Store)
    (hu : resolveUseCache options = true)
    (hc : cacheGet store cfg.cacheLifetime now (cacheKey query) = (some r, s)) :
    performSearchRequest trimE trimS cfg provider store now query options =
      ⟨r, s, false⟩ := by
  unfold performSearchRequest
  rw [hu]
  simp only [if_true]
  rw [hc]

/-- With caching on, a cache miss falls through to the miss path on the
store left by the read. -/
theorem performSearchRequest_eq_miss (trimE trimS : Str → Str) (cfg : Config)
    (provider : Str → RawSearchPayload) (store : Store) (now : Nat)
    (query : Str) (options : Option SearchRequestOptions) (s : Store)
    (hu : resolveUseCache options = true)
    (hc : cacheGet store cfg.cacheLifetime now (cacheKey query) = (none, s)) :
    performSearchRequest trimE trimS cfg provider store now query options =
      performMiss trimE trimS cfg provider s now query true := by
  unfold performSearchRequest
  rw [hu]
  simp only [if_true]
  rw [hc]

/-- With caching off, the cache is not consulted at all. -/
theorem performSearchRequest_eq_noCache (trimE trimS : Str → Str) (cfg : Config)
    (provider : Str → RawSearchPayload) (store : Store) (now : Nat)
    (query : Str) (options : Option SearchRequestOptions)
    (hu : resolveUseCache options = false) :
    performSearchRequest trimE trimS cfg provider store now query options =
      performMiss trimE trimS cfg provider store now query false := by
  unfold performSearchRequest
  rw [hu]
  simp only [Bool.false_eq_true, if_false]

/-- Claim C9: `performSearchRequest` called without an options argument,
or with an options object lacking the `useCache` field, behaves exactly
as with `useCache: true` (`options?.useCache ?? true`): the calls are
equal as functions of every other input. -/
theorem performSearchRequest_default_options (trimE trimS : Str → Str)
    (cfg : Config) (provider : Str → RawSearchPayload) (store : Store)
    (now : Nat) (query : Str) :
    performSearchRequest trimE trimS cfg provider store now query none =
      performSearchRequest trimE trimS cfg provider store now query
        (some ⟨some true⟩) ∧
    performSearchRequest trimE trimS cfg provider store now query (some ⟨none⟩) =
      performSearchRequest trimE trimS cfg provider store now query
        (some ⟨some true⟩) :=
  ⟨rfl, rfl⟩

/-- Claim C4 counterexample: for a query whose search produces no text
(here the provider returns an empty payload), nothing is cached, so the
second `useCache: true` call 500 ms later - well within the 1-second
TTL - issues a provider request again, contradicting "only the first
call issues a provider request". -/
theorem performSearchRequest_empty_result_requeries :
    (performSearchRequest id id ⟨1, 2000⟩ (fun _ => ⟨[], [], []⟩) [] 0
      (str "q") (some ⟨some true⟩)).providerCalled = true ∧
    (performSearchRequest id id ⟨1, 2000⟩ (fun _ => ⟨[], [], []⟩)
      (performSearchRequest id id ⟨1, 2000⟩ (fun _ => ⟨[], [], []⟩) [] 0
        (str "q") (some ⟨some true⟩)).store 500
      (str "q") (some ⟨some true⟩)).providerCalled = true := by decide

/-- Claim C4 (amended): for every query whose first uncached search
assembles non-empty text, a second `performSearchRequest` with
`useCache: true` within the TTL window returns the byte-identical
`{text, links, images}` from the cache, leaves the store untouched and
issues no provider request, while the first call issued one.  (When the
assembled text is empty nothing is cached and each call queries the
provider, see the counterexample.) -/
theorem performSearchRequest_cached_idempotent (trimE trimS : Str → Str)
    (cfg : Config) (provider : Str → RawSearchPayload) (store : Store)
    (now1 now2 : Nat) (query : Str)
    (hmiss : (cacheGet store cfg.cacheLifetime now1 (cacheKey query)).1 = none)
    (htext : assembleText trimE trimS (provider query).textBits cfg.budget ≠ [])
    (httl : now2 ≤ now1 + cfg.cacheLifetime * 1000) :
    performSearchRequest trimE trimS cfg provider
        (performSearchRequest trimE trimS cfg provider store now1 query
          (some ⟨some true⟩)).store now2 query (some ⟨some true⟩) =
      ⟨(performSearchRequest trimE trimS cfg provider store now1 query
          (some ⟨some true⟩)).result,
        (performSearchRequest trimE trimS cfg provider store now1 query
          (some ⟨some true⟩)).store, false⟩ ∧
    (performSearchRequest trimE trimS cfg provider store now1 query
        (some ⟨some true⟩)).providerCalled = true := by
  rcases hc : cacheGet store cfg.cacheLifetime now1 (cacheKey query) with ⟨o, s1⟩
  rw [hc] at hmiss
  dsimp only at hmiss
  subst hmiss
  have h1 : performSearchRequest trimE trimS cfg provider store now1 query
      (some ⟨some true⟩) = performMiss trimE trimS cfg provider s1 now1 query true :=
    performSearchRequest_eq_miss trimE trimS cfg provider store now1 query
      (some ⟨some true⟩) s1 rfl hc
  have h2 : performMiss trimE trimS cfg provider s1 now1 query true =
      ⟨⟨assembleText trimE trimS (provider query).textBits cfg.budget,
        dedupKeepFirst (provider query).links,
        dedupKeepFirst (provider query).images⟩,
       storeSet s1 (cacheKey query)
         ⟨assembleText trimE trimS (provider query).textBits cfg.budget,
          dedupKeepFirst (provider query).links,
          dedupKeepFirst (provider query).images, now1⟩, true⟩ := by
    unfold performMiss
    rw [if_neg htext]
    rfl
  have hget : cacheGet (storeSet s1 (cacheKey query)
      ⟨assembleText trimE trimS (provider query).textBits cfg.budget,
       dedupKeepFirst (provider query).links,
       dedupKeepFirst (provider query).images, now1⟩)
      cfg.cacheLifetime now2 (cacheKey query) =
      (some ⟨assembleText trimE trimS (provider query).textBits cfg.budget,
        dedupKeepFirst (provider query).links,
        dedupKeepFirst (provider query).images⟩,
       storeSet s1 (cacheKey query)
         ⟨assembleText trimE trimS (provider query).textBits cfg.budget,
          dedupKeepFirst (provider query).links,
          dedupKeepFirst (provider query).images, now1⟩) := by
    unfold cacheGet
    rw [storeGet_set_same]
    dsimp only
    rw [if_neg (Nat.not_lt.mpr httl)]
  constructor
  · rw [h1, h2]
    exact performSearchRequest_eq_hit trimE trimS cfg provider _ now2 query
      (some ⟨some true⟩) _ _ rfl hget
  · rw [h1, h2]

/-- Witness for the amended C4 at a concrete input. -/
theorem performSearchRequest_cached_idempotent_witness :
    performSearchRequest id id ⟨1, 2000⟩ (fun _ => ⟨[str "Hi."], [], []⟩)
        (performSearchRequest id id ⟨1, 2000⟩ (fun _ => ⟨[str "Hi."], [], []⟩)
          [] 0 (str "q") (some ⟨some true⟩)).store 500 (str "q")
        (some ⟨some true⟩) =
      ⟨(performSearchRequest id id ⟨1, 2000⟩ (fun _ => ⟨[str "Hi."], [], []⟩)
          [] 0 (str "q") (some ⟨some true⟩)).result,
        (performSearchRequest id id ⟨1, 2000⟩ (fun _ => ⟨[str "Hi."], [], []⟩)
          [] 0 (str "q") (some ⟨some true⟩)).store, false⟩ ∧
    (performSearchRequest id id ⟨1, 2000⟩ (fun _ => ⟨[str "Hi."], [], []⟩)
        [] 0 (str "q") (some ⟨some true⟩)).providerCalled = true :=
  performSearchRequest_cached_idempotent id id ⟨1, 2000⟩
    (fun _ => ⟨[str "Hi."], [], []⟩) [] 0 500 (str "q")
    (by decide) (by decide) (by decide)

/-! ## The empty-result path -/

/-- If every text bit comes out of the ellipsis trimming empty, the
budget loop never appends anything. -/
theorem assembleLoop_all_empty (trimE trimS : Str → Str) (budget : Nat) :
    ∀ (bits : List Str) (text : Str),
      (∀ b ∈ bits, processSnippet trimE trimS b = []) →
      assembleLoop trimE trimS budget bits text = text := by
  intro bits
  induction bits with
  | nil => intro text _; rw [assembleLoop]
  | cons b rest ih =>
    intro text h
    have hb : processSnippet trimE trimS b = [] := h b (List.mem_cons_self b rest)
    have hrest : ∀ x ∈ rest, processSnippet trimE trimS x = [] :=
      fun x hx => h x (List.mem_cons_of_mem b hx)
    rw [assembleLoop]
    split_ifs with h1
    · exact ih text hrest
    · exact ih text hrest

/-- If every text bit trims to empty, `assembleText` returns the empty
string. -/
theorem assembleText_all_empty (trimE trimS : Str → Str) (textBits : List Str)
    (budget : Nat)
    (h : ∀ b ∈ textBits, processSnippet trimE trimS b = []) :
    assembleText trimE trimS textBits budget = [] :=
  assembleLoop_all_empty trimE trimS budget (dedupKeepFirst textBits) []
    (fun b hb => h b ((dedupKeepFirst_sublist textBits).subset hb))

/-- Claim C5: a query whose search yields zero non-empty text bits after
trimming returns exactly `{text: "", links: [], images: []}` and writes
no cache entry, even with `useCache: true` and even when the raw payload
contained links or images; the store is unchanged apart from the lazy
expiry deletion performed by the read. -/
theorem performSearchRequest_empty_no_write (trimE trimS : Str → Str)
    (cfg : Config) (provider : Str → RawSearchPayload) (store : Store)
    (now : Nat) (query : Str)
    (hbits : ∀ b ∈ (provider query).textBits, processSnippet trimE trimS b = [])
    (hmiss : (cacheGet store cfg.cacheLifetime now (cacheKey query)).1 = none) :
    (performSearchRequest trimE trimS cfg provider store now query
      (some ⟨some true⟩)).result = ⟨[], [], []⟩ ∧
    (performSearchRequest trimE trimS cfg provider store now query
      (some ⟨some true⟩)).store =
      (cacheGet store cfg.cacheLifetime now (cacheKey query)).2 := by
  rcases hc : cacheGet store cfg.cacheLifetime now (cacheKey query) with ⟨o, s1⟩
  rw [hc] at hmiss
  dsimp only at hmiss
  subst hmiss
  rw [performSearchRequest_eq_miss trimE trimS cfg provider store now query
    (some ⟨some true⟩) s1 rfl hc]
  unfold performMiss
  rw [if_pos (assembleText_all_empty trimE trimS (provider query).textBits
    cfg.budget hbits)]
  exact ⟨rfl, rfl⟩

/-- Witness for C5: a payload whose only text bit is a bare ellipsis,
with a link and an image present, produces the empty sentinel and
leaves the store empty. -/
theorem performSearchRequest_empty_no_write_witness :
    (performSearchRequest id id ⟨1, 2000⟩
      (fun _ => ⟨[str "..."], [str "https://a.com/1"], [str "https://img"]⟩)
      [] 0 (str "q") (some ⟨some true⟩)).result = ⟨[], [], []⟩ ∧
    (performSearchRequest id id ⟨1, 2000⟩
      (fun _ => ⟨[str "..."], [str "https://a.com/1"], [str "https://img"]⟩)
      [] 0 (str "q") (some ⟨some true⟩)).store =
      (cacheGet [] 1 0 (cacheKey (str "q"))).2 :=
  performSearchRequest_empty_no_write id id ⟨1, 2000⟩
    (fun _ => ⟨[str "..."], [str "https://a.com/1"], [str "https://img"]⟩)
    [] 0 (str "q") (by decide) (by decide)

/-! ## No duplicates in the orchestrator's output -/

/-- The miss path of `performSearchRequest` yields deduplicated links
and images that are subsequences of the raw payload's. -/
theorem performMiss_spec (trimE trimS : Str → Str) (cfg : Config)
    (provider : Str → RawSearchPayload) (s : Store) (now : Nat) (query : Str)
    (useCache : Bool) :
    (performMiss trimE trimS cfg provider s now query useCache).result.links.Nodup ∧
    (performMiss trimE trimS cfg provider s now query useCache).result.images.Nodup ∧
    List.Sublist (performMiss trimE trimS cfg provider s now query useCache).result.links
      (provider query).links ∧
    List.Sublist (performMiss trimE trimS cfg provider s now query useCache).result.images
      (provider query).images := by
  unfold performMiss
  split_ifs with h hu
  · exact ⟨List.nodup_nil, List.nodup_nil, List.nil_sublist _, List.nil_sublist _⟩
  · exact ⟨dedupKeepFirst_nodup _, dedupKeepFirst_nodup _,
      dedupKeepFirst_sublist _, dedupKeepFirst_sublist _⟩
  · exact ⟨dedupKeepFirst_nodup _, dedupKeepFirst_nodup _,
      dedupKeepFirst_sublist _, dedupKeepFirst_sublist _⟩

/-- Claim C7: every `SearchResult` returned by `performSearchRequest`
has duplicate-free `links` and `images` (assuming every entry already in
the store satisfies this, as every entry the function itself writes
does), and whenever the provider path is taken the output sequences are
subsequences of the raw payload's - first-occurrence order preserved. -/
theorem performSearchRequest_no_duplicates (trimE trimS : Str → Str)
    (cfg : Config) (provider : Str → RawSearchPayload) (store : Store)
    (now : Nat) (query : Str) (options : Option SearchRequestOptions)
    (hstore : ∀ k e, storeGet store k = some e → e.links.Nodup ∧ e.images.Nodup) :
    (performSearchRequest trimE trimS cfg provider store now query
      options).result.links.Nodup ∧
    (performSearchRequest trimE trimS cfg provider store now query
      options).result.images.Nodup ∧
    ((performSearchRequest trimE trimS cfg provider store now query
        options).providerCalled = true →
      List.Sublist (performSearchRequest trimE trimS cfg provider store now query
        options).result.links (provider query).links ∧
      List.Sublist (performSearchRequest trimE trimS cfg provider store now query
        options).result.images (provider query).images) := by
  cases hu : resolveUseCache options with
  | false =>
    rw [performSearchRequest_eq_noCache trimE trimS cfg provider store now query
      options hu]
    have h := performMiss_spec trimE trimS cfg provider store now query false
    exact ⟨h.1, h.2.1, fun _ => ⟨h.2.2.1, h.2.2.2⟩⟩
  | true =>
    rcases hc : cacheGet store cfg.cacheLifetime now (cacheKey query) with ⟨o, s1⟩
    cases o with
    | some r =>
      rw [performSearchRequest_eq_hit trimE trimS cfg provider store now query
        options r s1 hu hc]
      obtain ⟨e, he, hr, _⟩ := cacheGet_some_spec store cfg.cacheLifetime now
        (cacheKey query) r s1 hc
      obtain ⟨hl, hi⟩ := hstore (cacheKey query) e he
      subst hr
      exact ⟨hl, hi, fun h => nomatch h⟩
    | none =>
      rw [performSearchRequest_eq_miss trimE trimS cfg provider store now query
        options s1 hu hc]
      have h := performMiss_spec trimE trimS cfg provider s1 now query true
      exact ⟨h.1, h.2.1, fun _ => ⟨h.2.2.1, h.2.2.2⟩⟩

/-- Witness for C7: a raw payload with duplicated links and images is
returned deduplicated. -/
theorem performSearchRequest_no_duplicates_witness :
    (performSearchRequest id id ⟨1, 2000⟩
      (fun _ => ⟨[str "Hi."], [str "a", str "a"], [str "b", str "b"]⟩)
      [] 0 (str "q") (some ⟨some true⟩)).result.links.Nodup ∧
    (performSearchRequest id id ⟨1, 2000⟩
      (fun _ => ⟨[str "Hi."], [str "a", str "a"], [str "b", str "b"]⟩)
      [] 0 (str "q") (some ⟨some true⟩)).result.images.Nodup ∧
    ((performSearchRequest id id ⟨1, 2000⟩
        (fun _ => ⟨[str "Hi."], [str "a", str "a"], [str "b", str "b"]⟩)
        [] 0 (str "q") (some ⟨some true⟩)).providerCalled = true →
      List.Sublist (performSearchRequest id id ⟨1, 2000⟩
        (fun _ => ⟨[str "Hi."], [str "a", str "a"], [str "b", str "b"]⟩)
        [] 0 (str "q") (some ⟨some true⟩)).result.links [str "a", str "a"] ∧
      List.Sublist (performSearchRequest id id ⟨1, 2000⟩
        (fun _ => ⟨[str "Hi."], [str "a", str "a"], [str "b", str "b"]⟩)
        [] 0 (str "q") (some ⟨some true⟩)).result.images [str "b", str "b"]) :=
  performSearchRequest_no_duplicates id id ⟨1, 2000⟩
    (fun _ => ⟨[str "Hi."], [str "a", str "a"], [str "b", str "b"]⟩)
    [] 0 (str "q") (some ⟨some true⟩) (fun _ _ h => nomatch h)

/-! ## The Link Filter -/

/-- Claim C6: `isAllowedUrl` returns `false` when the link does not
parse as a URL, and otherwise returns `false` iff the hostname
contains, as a substring, some blacklist entry that is non-empty after
trimming (the code guards on `y.trim()` being truthy and then matches
`url.hostname.includes(y)` against the entry verbatim).  In particular
it rejects `"https://sub.youtube.com/x"` under the default blacklist
and rejects `"not a url"`. -/
theorem isAllowedUrl_spec (blacklist : List Str) (link : Str) :
    (parseUrlHostname link = none → isAllowedUrl blacklist link = false) ∧
    (∀ hostname, parseUrlHostname link = some hostname →
      (isAllowedUrl blacklist link = false ↔
        ∃ y ∈ blacklist, trimStr y ≠ [] ∧ strIncludes hostname y = true)) ∧
    isAllowedUrl defaultVisitBlacklist (str "https://sub.youtube.com/x") = false ∧
    isAllowedUrl defaultVisitBlacklist (str "not a url") = false := by
  refine ⟨?_, ?_, by decide, by decide⟩
  · intro h
    unfold isAllowedUrl
    rw [h]
  · intro hostname h
    unfold isAllowedUrl
    rw [h]
    simp only [Bool.not_eq_false', List.any_eq_true, Bool.and_eq_true,
      Bool.not_eq_true', List.isEmpty_eq_false, ne_eq]

/-- Witness for C6: applying the general part of the claim at the
concrete unparsable input. -/
theorem isAllowedUrl_spec_witness :
    isAllowedUrl defaultVisitBlacklist (str "not a url") = false :=
  (isAllowedUrl_spec defaultVisitBlacklist (str "not a url")).1 (by decide)

/-! ## The Query Executor -/

/-- Claim C8: in `doSerperQuery`, failure of either concurrent provider
request (rejected promise or non-success status) degrades only that
request's contribution to the payload to empty: a failed web search
still leaves the image search's results in the returned payload and
vice versa.  `doSerperQuery` is a total function of the two settled
outcomes (`Promise.allSettled` plus per-branch status checks), so such
a failure never propagates to the caller. -/
theorem doSerperQuery_failure_isolated (includeImages : Bool)
    (webResponse imageResponse : Option SerperResponse) :
    (requestFailed webResponse →
      doSerperQuery includeImages webResponse imageResponse =
        ⟨[], [],
          parseImageOutcome (if includeImages then imageResponse else none)⟩) ∧
    (requestFailed imageResponse →
      doSerperQuery includeImages webResponse imageResponse =
        parseWebOutcome includeImages webResponse) := by
  constructor
  · intro hf
    have hw : parseWebOutcome includeImages webResponse = ⟨[], [], []⟩ := by
      cases webResponse with
      | none => rfl
      | some r =>
        unfold requestFailed at hf
        dsimp only at hf
        unfold parseWebOutcome
        dsimp only
        rw [hf]
        rfl
    unfold doSerperQuery
    rw [hw]
    simp only [List.nil_append]
    generalize parseImageOutcome (if includeImages then imageResponse else none) = imgs
    split_ifs with h
    · rw [h.2.2]
    · rfl
  · intro hf
    have hi : parseImageOutcome (if includeImages then imageResponse else none) = [] := by
      cases includeImages with
      | false => rfl
      | true =>
        cases imageResponse with
        | none => rfl
        | some r =>
          unfold requestFailed at hf
          dsimp only at hf
          unfold parseImageOutcome
          simp [hf]
    unfold doSerperQuery
    rw [hi]
    simp only [List.append_nil]
    split_ifs with h
    · cases hpw : parseWebOutcome includeImages webResponse with
      | mk tb ln im =>
        rw [hpw] at h
        obtain ⟨h1, h2, h3⟩ := h
        dsimp only at h1 h2 h3
        rw [h1, h2, h3]
    · rfl

/-- Witness for C8: a rejected web request with a successful image
request still yields the image URLs. -/
theorem doSerperQuery_failure_isolated_witness :
    doSerperQuery true none
        (some ⟨true, ⟨none, none, none, none, some [⟨str "img"⟩]⟩⟩) =
      ⟨[], [],
        parseImageOutcome (if true then
          (some ⟨true, ⟨none, none, none, none, some [⟨str "img"⟩]⟩⟩)
          else none)⟩ :=
  (doSerperQuery_failure_isolated true none
    (some ⟨true, ⟨none, none, none, none, some [⟨str "img"⟩]⟩⟩)).1 trivial

/-- Claim C10: with `include_images` disabled, the payload returned by
`doSerperQuery` has an empty images sequence - images present in the
web-search response are not appended - and the result does not depend
on the image-search oracle at all, modelling that no image request is
issued. -/
theorem doSerperQuery_images_disabled
    (webResponse imageResponse imageResponseAlt : Option SerperResponse) :
    (doSerperQuery false webResponse imageResponse).images = [] ∧
    doSerperQuery false webResponse imageResponse =
      doSerperQuery false webResponse imageResponseAlt := by
  have hw : (parseWebOutcome false webResponse).images = [] := by
    cases webResponse with
    | none => rfl
    | some r =>
      unfold parseWebOutcome
      dsimp only
      cases hok : r.ok with
      | false => rfl
      | true => rfl
  constructor
  · unfold doSerperQuery
    rw [show parseImageOutcome (if false then imageResponse else none) = []
      from rfl]
    simp only [List.append_nil]
    split_ifs with h
    · rfl
    · exact hw
  · rfl

/-! ## The Bounded Visitor -/

/-- Claim C2, evaluated at its failing input (the claim is correct and
the code is wrong): with two blacklist-surviving links whose visits
both fail and `maxCount = 1`, the loop of `collectVisitResults` - which
breaks only on `results.length >= maxCount` - attempts (fetches) both
links, although the claim, the spec and the function's own JSDoc
("Maximum number of links to visit") allow at most one attempt.  The
returned results are empty, so the bound on successes never engages. -/
theorem collectVisitResults_attempts_exceed_maxCount :
    (collectVisitResults defaultVisitBlacklist (fun _ => none)
        [str "https://a.com/1", str "https://b.com/2"] 1).2 =
      [str "https://a.com/1", str "https://b.com/2"] ∧
    (collectVisitResults defaultVisitBlacklist (fun _ => none)
        [str "https://a.com/1", str "https://b.com/2"] 1).1 = [] := by decide

end WebSearch
